import Mathlib

/-!
Verification development for the CreditFlow installment-tracking application.

The source is a TypeScript/React application.  The core under verification is
the pure data-transformation layer of `src/App.tsx` (the monthly-projection
engine `monthlyData`, the payment-ledger join `dashboardMetrics`, the
filter/view derivations `filteredTransactions` / `visibleCards`, the calendar
helper `addMonths`, the invoice toggle `toggleInvoiceStatus`), the placeholder
lookup `getCardInfo` of `src/components/TransactionList.tsx`, and the
payment-sheet key handling of `src/services/excelService.ts`.

Modelling conventions:
* JS numbers carrying money are modelled as exact rationals `ℚ`
  (binary floating point is outside the model); `Math.round(x*100)/100` is
  modelled as exact half-up rounding to 2 decimals (`round2`).
* Month tokens `"YYYY-MM"` are modelled inside the projection engine by their
  month index `year*12 + (month-1) : ℕ`.  For zero-padded 4-digit-year tokens,
  lexicographic string comparison (which the source uses for min/max, the
  range walk and the final sort) agrees with numeric comparison of indices.
  The string-level `addMonths` is modelled separately (`addMonths` below).
* JS objects used as string-keyed maps (`breakdown`) are modelled as
  insertion-ordered association lists, matching `Object.entries` /
  `Object.keys` iteration order.
* The display-only field `displayDate` (`formatDisplayDate`, a localized
  label never used in comparisons or keys) is omitted from the model.
* The engine's `minDate` sentinel `'9999-12'` is *itself the maximal valid
  token* (index 119999), so the strict `<` update leaves the sentinel in
  place when a due month equals `"9999-12"` and the range guard then
  suppresses the whole projection; and a month walk that reaches `"9999-12"`
  overruns it (`addMonths` then yields the expanded-ISO slice `"+010000"`,
  which compares *below* `"9999-12"`, and the following `addMonths` call
  throws a RangeError on an Invalid Date).  The model therefore keeps
  `minDate : ℕ` initialized to 119999 with the source's strict-`<` update,
  and `monthlyData` returns an `Option`, `none` modelling the thrown
  exception.  The `maxDate` sentinel `'0000-00'` does compare strictly below
  every valid token (month `00` is not a valid month), so it is modelled by
  `Option.none`.  Purchases are modelled with valid-token `startMonth`
  (indices `0‥119999`); indices above 119999 encode no `"YYYY-MM"` token and
  are outside the embedding's input domain.
-/

namespace CreditFlow

/-! ## Domain types (src/types.ts) -/

structure Card where
  id : String
  name : String
  color : String
  dueDay : ℕ
deriving DecidableEq

structure Transaction where
  id : String
  cardId : String
  title : String
  totalAmount : ℚ
  installments : ℕ
  startMonth : ℕ
deriving DecidableEq

structure Item where
  title : String
  installmentNumber : ℕ
  amount : ℚ
  cardId : String
deriving DecidableEq

structure MonthlyData where
  month : ℕ
  totalDue : ℚ
  breakdown : List (String × ℚ)
  items : List Item
deriving DecidableEq

/-! ## Calendar arithmetic: the string-level addMonths (src/App.tsx lines 13-17)

`addMonths` does `const [year, month] = dateStr.split('-').map(Number);
const date = new Date(year, month - 1 + months, 1);
return date.toISOString().slice(0, 7);`.

We model it on an already-parsed valid token (`split('-').map(Number)` on a
valid `"YYYY-MM"` token yields its year and month).  The `Date(year, mi, 1)`
constructor remaps year arguments 0–99 to 1900–1999 and then normalizes the
month index `mi` with floor division (`/` and `%` below are `Int.ediv` /
`Int.emod`, which agree with floor semantics for the positive divisor 12).
`toISOString()` is taken with the host timezone equal to UTC, so the date
components are preserved; it renders years 0–9999 as 4 zero-padded digits and
all other years in the expanded `±YYYYYY` form, of which `slice(0, 7)` then
keeps only the sign and six year digits. -/

def padLeft (w : ℕ) (n : ℕ) : String :=
  String.mk (List.replicate (w - (toString n).length) '0') ++ toString n

/-- The `"YYYY-MM"` token of a (year, month) pair, zero-padded. -/
def tokenOf (year month : ℕ) : String :=
  padLeft 4 year ++ "-" ++ padLeft 2 month

/-- `new Date(year, ...)` maps year arguments 0–99 to 1900–1999. -/
def jsYearAdjust (y : ℤ) : ℤ := if 0 ≤ y ∧ y ≤ 99 then y + 1900 else y

/-- The (year, 1-based month) the JS `Date` normalizes
`new Date(year, month - 1 + n, 1)` to. -/
def addMonthsYM (year month : ℕ) (n : ℤ) : ℤ × ℕ :=
  let mi : ℤ := (month : ℤ) - 1 + n
  (jsYearAdjust (year : ℤ) + mi / 12, (mi % 12).toNat + 1)

/-- `toISOString().slice(0, 7)`: years 0–9999 give `"YYYY-MM"`; other years
use the expanded ISO form whose first seven characters are the sign and six
year digits (no month at all). -/
def isoYearMonthSlice (y : ℤ) (m : ℕ) : String :=
  if 0 ≤ y ∧ y ≤ 9999 then padLeft 4 y.toNat ++ "-" ++ padLeft 2 m
  else if 9999 < y then "+" ++ padLeft 6 y.toNat
  else "-" ++ padLeft 6 (-y).toNat

/-- `addMonths` of src/App.tsx on a parsed valid month token. -/
def addMonths (year month : ℕ) (n : ℤ) : String :=
  isoYearMonthSlice (addMonthsYM year month n).1 (addMonthsYM year month n).2

/-! ## Projection engine (src/App.tsx `monthlyData`, lines 85-154)

The source iterates `filteredTransactions.forEach(t => for i in [0, t.installments) ...)`,
accumulating a `Map<string, MonthlyData>` keyed by month token together with
running `minDate`/`maxDate` tokens, then, guarded by
`minDate !== '9999-12' && maxDate !== '0000-00'`, walks the month range
filling gaps, rounding present entries, and finally sorts by month token.
Months are represented by their index (see header).  The `minDate` sentinel
`'9999-12'` is the maximal valid token, index 119999 (`lastToken`), and is
modelled as that very value so that the strict-`<` update reproduces the
source's sentinel collision at `"9999-12"`; the `maxDate` sentinel
`'0000-00'` lies strictly below every valid token and is modelled as
`Option.none`.  See `monthlyData` for the boundary behavior. -/

/-- One iteration of the `Object.entries(data.breakdown)` loop.  The
accumulator is `(totalRemaining, isMonthFullyPaid, monthHasDebtContent)`. -/
def monthStep (paid : String → ℕ → Bool) (m : ℕ) (acc : ℚ × Bool × Bool)
    (p : String × ℚ) : ℚ × Bool × Bool :=
  if 0 < p.2 then
    if paid p.1 m then (acc.1, acc.2.1, true)
    else (acc.1 + p.2, false, true)
  else acc

/-- `dashboardMetrics`: fold over the projection entries, returning
`(totalRemaining, monthsWithDebt)`. -/
def dashboardMetrics (entries : List MonthlyData) (paid : String → ℕ → Bool) :
    ℚ × ℕ :=
  entries.foldl (fun acc d =>
    let inner := d.breakdown.foldl (monthStep paid d.month) (acc.1, true, false)
    (inner.1, if inner.2.2 && !inner.2.1 then acc.2 + 1 else acc.2)) (0, 0)

/-! ## Filter/view derivation (src/App.tsx lines 78-82 and 157-172) -/

/-- JS truthiness of `selectedCardId : string | null`: `null` and the empty
string are falsy. -/
def isTruthy : Option String → Bool
  | none => false
  | some s => !(s == "")

/-- `filteredTransactions`: `selectedCardId ? transactions.filter(t => t.cardId
=== selectedCardId) : transactions`. -/
def filteredTransactions (transactions : List Transaction)
    (sel : Option String) : List Transaction :=
  if isTruthy sel then
    transactions.filter (fun t => some t.cardId == sel)
  else transactions

/-- Membership in the `activeCardIds` set: the id appears with an amount `> 0`
in some entry's breakdown. -/
def anyActive (entries : List MonthlyData) (id : String) : Bool :=
  entries.any (fun d => d.breakdown.any (fun p => p.1 == id && decide (0 < p.2)))

/-- `visibleCards`: with a (truthy) selection, the cards whose id matches it;
otherwise the cards active in some projection entry, falling back to the full
card list when the projection is empty. -/
def visibleCards (cards : List Card) (sel : Option String)
    (entries : List MonthlyData) : List Card :=
  if isTruthy sel then
    cards.filter (fun c => some c.id == sel)
  else if entries.isEmpty then cards
  else cards.filter (fun c => anyActive entries c.id)

/-! ## Application state and the invoice toggle (src/App.tsx lines 26-75) -/

structure AppState where
  cards : List Card
  transactions : List Transaction
  selectedCardId : Option String
  invoiceStatus : String → Bool

/-- `toggleInvoiceStatus`: `setInvoiceStatus(prev => ({...prev, [key]:
!invoiceStatus[key]}))`.  Only the in-memory ledger entry for `key` changes
(the `key.split('-')` in the source only feeds the asynchronous persistence
call, which is outside the in-memory state). -/
def toggleInvoiceStatus (s : AppState) (key : String) : AppState :=
  { s with invoiceStatus := fun k =>
      if k = key then !(s.invoiceStatus key) else s.invoiceStatus k }

/-! ## Placeholder card lookup (src/components/TransactionList.tsx lines 25-28) -/

def placeholderCard : Card :=
  { id := "unknown", name := "Desconhecido", color := "#64748b", dueDay := 10 }

/-- `getCardInfo`: `cards.find(c => c.id === cardId) || placeholder`. -/
def getCardInfo (cards : List Card) (cardId : String) : Card :=
  match cards.find? (fun c => c.id == cardId) with
  | some c => c
  | none => placeholderCard

/-! ## Excel payment-sheet key handling (src/services/excelService.ts)

`exportToExcel` turns each ledger entry into a row by
`const [cardId, year, month] = key.split('-')` and
`{CardID: cardId, Mês: year + "-" + month, Pago: isPaid ? 'SIM' : 'NÃO'}`;
`parseExcelFile` maps a row back to `{cardId: CardID, month: Mês,
isPaid: Pago === 'SIM'}`.  JS `split('-')` on a single-character separator is
modelled by `splitDash` on the character list of the string.  App-generated
keys always contain at least two dashes, so the three destructured segments
are always present. -/

def mkInvoiceKey (cardId month : String) : String := cardId ++ "-" ++ month

def splitDash : List Char → List (List Char)
  | [] => [[]]
  | c :: rest =>
      let r := splitDash rest
      if c = '-' then [] :: r
      else match r with
        | h :: t => (c :: h) :: t
        | [] => [[c]]

/-- The `(CardID, Mês, Pago)` row `exportToExcel` writes for a ledger entry. -/
def exportPaymentRow (key : String) (isPaid : Bool) : String × String × String :=
  let parts := (splitDash key.data).map String.mk
  (parts.getD 0 "", parts.getD 1 "" ++ "-" ++ parts.getD 2 "",
    if isPaid then "SIM" else "NÃO")

/-- The `(cardId, month, isPaid)` record `parseExcelFile` reads back from a row. -/
def importPayment (row : String × String × String) : String × String × Bool :=
  (row.1, row.2.1, row.2.2 == "SIM")

/-! ## Engine normal form

The nested purchase/installment loops are flattened into the event list
`events ts` (one event per (purchase, installment index) pair, in source
iteration order), and the accumulated state of the fold is characterized
month by month. -/

/-- A sample purchase: 300 over 3 installments starting at month index 24288
(the token `"2024-01"`). -/
def sampleTV : Transaction :=
  { id := "t1", cardId := "c1", title := "TV", totalAmount := 300,
    installments := 3, startMonth := 24288 }

/-- Sample entries for the metric witnesses: two months on cards `c1`/`c2`. -/
def sampleEntries : List MonthlyData :=
  [ { month := 24288, totalDue := 250, breakdown := [("c1", 100), ("c2", 150)],
      items := [] },
    { month := 24289, totalDue := 100, breakdown := [("c1", 100)],
      items := [] } ]

/-- Sample cards for the view witnesses. -/
def sampleCards : List Card :=
  [ { id := "c1", name := "Nubank", color := "#8b5cf6", dueDay := 10 },
    { id := "c3", name := "Inter", color := "#3b82f6", dueDay := 5 } ]

/-- Sample application state for the toggle witness: one ledger key paid. -/
def sampleState : AppState :=
  { cards := sampleCards, transactions := [sampleTV], selectedCardId := none,
    invoiceStatus := fun k => k == "c1-2024-01" }

/-- C2 counterexample: the claim asserts `addMonths` is correct for *every*
valid `"YYYY-MM"` token.  On the valid token `"0001-01"` (year 1) with
`n = 0`, the `Date` constructor's two-digit-year rule remaps year 1 to 1901,
so `addMonths` returns `"1901-01"` instead of the token 0 months after
`"0001-01"`, which is `"0001-01"` itself. -/
theorem C2_addMonths_counterexample :
    addMonths 1 1 0 = "1901-01" ∧ tokenOf 1 1 = "0001-01" ∧
    addMonths 1 1 0 ≠ tokenOf 1 1 := by
  refine ⟨by with_unfolding_all decide, by with_unfolding_all decide,
    by with_unfolding_all decide⟩

/-- C2 (amended): for every valid month token whose year is between 100 and
9999 (years 0–99 are remapped to 1900–1999 by the `Date` constructor) and
every integer `n` such that the resulting year stays within 0–9999 (the only
years `toISOString` renders as plain 4-digit years), `addMonths` returns the
zero-padded token exactly `n` calendar months after the input, with year
rollover, and the result month is a valid month 1–12. -/
theorem C2_addMonths_amended (y m : ℕ) (n : ℤ)
    (hy1 : 100 ≤ y) (hy2 : y ≤ 9999) (hm1 : 1 ≤ m) (hm2 : m ≤ 12)
    (hlo : 0 ≤ (addMonthsYM y m n).1) (hhi : (addMonthsYM y m n).1 ≤ 9999) :
    addMonths y m n = tokenOf (addMonthsYM y m n).1.toNat (addMonthsYM y m n).2 ∧
    1 ≤ (addMonthsYM y m n).2 ∧ (addMonthsYM y m n).2 ≤ 12 ∧
    ((addMonthsYM y m n).1 * 12 + ((addMonthsYM y m n).2 : ℤ) - 1)
      = ((y : ℤ) * 12 + (m : ℤ) - 1) + n := by
  have hadj : jsYearAdjust (y : ℤ) = (y : ℤ) := by
    unfold jsYearAdjust
    rw [if_neg]
    omega
  have hmod1 : 0 ≤ ((m : ℤ) - 1 + n) % 12 := by omega
  have hmod2 : ((m : ℤ) - 1 + n) % 12 < 12 := by omega
  have hym : addMonthsYM y m n
      = ((y : ℤ) + ((m : ℤ) - 1 + n) / 12, (((m : ℤ) - 1 + n) % 12).toNat + 1) := by
    unfold addMonthsYM
    rw [hadj]
  refine ⟨?_, ?_, ?_, ?_⟩
  · unfold addMonths isoYearMonthSlice
    rw [if_pos ⟨hlo, hhi⟩]
    rfl
  · rw [hym]
    omega
  · rw [hym]
    omega
  · rw [hym]
    simp only
    omega

/-- C2 amended witness: `"2024-11"` plus 3 months is `"2025-02"`. -/
theorem C2_addMonths_amended_witness :
    (100 ≤ 2024 ∧ 2024 ≤ 9999 ∧ 1 ≤ 11 ∧ 11 ≤ 12 ∧
      0 ≤ (addMonthsYM 2024 11 3).1 ∧ (addMonthsYM 2024 11 3).1 ≤ 9999) ∧
    (addMonths 2024 11 3
        = tokenOf (addMonthsYM 2024 11 3).1.toNat (addMonthsYM 2024 11 3).2 ∧
      1 ≤ (addMonthsYM 2024 11 3).2 ∧ (addMonthsYM 2024 11 3).2 ≤ 12 ∧
      ((addMonthsYM 2024 11 3).1 * 12 + ((addMonthsYM 2024 11 3).2 : ℤ) - 1)
        = ((2024 : ℕ) * 12 + (11 : ℤ) - 1) + 3) := by
  refine ⟨by with_unfolding_all decide, ?_⟩
  exact C2_addMonths_amended 2024 11 3 (by decide) (by decide) (by decide)
    (by decide) (by with_unfolding_all decide) (by with_unfolding_all decide)

theorem breakdown_fold_char (paid : String → ℕ → Bool) (m : ℕ)
    (b : List (String × ℚ)) :
    ∀ (x : ℚ) (fp hc : Bool),
      b.foldl (monthStep paid m) (x, fp, hc)
        = (x + ((b.filter (fun p => decide (0 < p.2) && !(paid p.1 m))).map
              Prod.snd).sum,
           fp && !(b.any (fun p => decide (0 < p.2) && !(paid p.1 m))),
           hc || b.any (fun p => decide (0 < p.2))) := by
  induction b with
  | nil => intro x fp hc; simp
  | cons p rest ih =>
      intro x fp hc
      rw [List.foldl_cons]
      simp only [List.filter_cons, List.any_cons]
      by_cases hpos : 0 < p.2
      · by_cases hpaid : paid p.1 m
        · have hstep : monthStep paid m (x, fp, hc) p = (x, fp, true) := by
            rw [monthStep, if_pos hpos, if_pos hpaid]
          have hcond : (decide (0 < p.2) && !(paid p.1 m)) = false := by
            simp [hpaid]
          rw [hstep, ih, hcond, decide_eq_true hpos]
          simp
        · have hstep : monthStep paid m (x, fp, hc) p = (x + p.2, false, true) := by
            rw [monthStep, if_pos hpos, if_neg hpaid]
          have hcond : (decide (0 < p.2) && !(paid p.1 m)) = true := by
            simp [hpos, hpaid]
          rw [hstep, ih, hcond, decide_eq_true hpos]
          simp [add_assoc]
      · have hstep : monthStep paid m (x, fp, hc) p = (x, fp, hc) := by
          rw [monthStep, if_neg hpos]
        have hcond : (decide (0 < p.2) && !(paid p.1 m)) = false := by
          simp [hpos]
        rw [hstep, ih, hcond, decide_eq_false hpos]
        simp

theorem any_pos_absorb (b : List (String × ℚ)) (q : String × ℚ → Bool) :
    (b.any (fun p => decide (0 < p.2)) && b.any (fun p => decide (0 < p.2) && q p))
      = b.any (fun p => decide (0 < p.2) && q p) := by
  cases h : b.any (fun p => decide (0 < p.2) && q p)
  · rw [Bool.and_false]
  · rw [Bool.and_true]
    obtain ⟨p, hp, hpq⟩ := List.any_eq_true.mp h
    refine List.any_eq_true.mpr ⟨p, hp, ?_⟩
    cases hd : decide (0 < p.2)
    · rw [hd, Bool.false_and] at hpq
      cases hpq
    · rfl

theorem dashboardMetrics_eq_foldl (entries : List MonthlyData)
    (paid : String → ℕ → Bool) :
    dashboardMetrics entries paid = entries.foldl (fun acc d =>
      ((d.breakdown.foldl (monthStep paid d.month) (acc.1, true, false)).1,
        if ((d.breakdown.foldl (monthStep paid d.month) (acc.1, true, false)).2.2
            && !((d.breakdown.foldl (monthStep paid d.month)
              (acc.1, true, false)).2.1)) = true
        then acc.2 + 1 else acc.2)) (0, 0) := rfl

theorem dashboardMetrics_char (entries : List MonthlyData)
    (paid : String → ℕ → Bool) :
    dashboardMetrics entries paid
      = ((entries.map (fun e =>
            ((e.breakdown.filter (fun p =>
              decide (0 < p.2) && !(paid p.1 e.month))).map Prod.snd).sum)).sum,
         entries.countP (fun e =>
            e.breakdown.any (fun p =>
              decide (0 < p.2) && !(paid p.1 e.month)))) := by
  rw [dashboardMetrics_eq_foldl]
  suffices h : ∀ acc : ℚ × ℕ,
      entries.foldl (fun acc d =>
        ((d.breakdown.foldl (monthStep paid d.month) (acc.1, true, false)).1,
          if ((d.breakdown.foldl (monthStep paid d.month) (acc.1, true, false)).2.2
              && !((d.breakdown.foldl (monthStep paid d.month)
                (acc.1, true, false)).2.1)) = true
          then acc.2 + 1 else acc.2)) acc
      = (acc.1 + (entries.map (fun e =>
            ((e.breakdown.filter (fun p =>
              decide (0 < p.2) && !(paid p.1 e.month))).map Prod.snd).sum)).sum,
         acc.2 + entries.countP (fun e =>
            e.breakdown.any (fun p =>
              decide (0 < p.2) && !(paid p.1 e.month)))) by
    rw [h (0, 0)]
    refine Prod.ext ?_ ?_
    · show (0 : ℚ) + _ = _
      rw [zero_add]
    · show 0 + _ = _
      rw [Nat.zero_add]
  induction entries with
  | nil => intro acc; simp
  | cons e rest ih =>
      intro acc
      rw [List.foldl_cons, ih, breakdown_fold_char]
      dsimp only
      rw [Bool.false_or, Bool.true_and, Bool.not_not, any_pos_absorb]
      rw [List.map_cons, List.sum_cons, List.countP_cons]
      refine Prod.ext ?_ ?_
      · dsimp only
        rw [add_assoc]
      · dsimp only
        by_cases h : e.breakdown.any
            (fun p => decide (0 < p.2) && !(paid p.1 e.month)) = true
        · rw [if_pos h, if_pos h]
          omega
        · rw [if_neg h, if_neg h]
          omega

/-! ### C4 -/

/-- C5: `monthsWithDebt` counts exactly the entries with at least one nonzero
per-card amount and at least one nonzero unpaid per-card amount (breakdown
amounts being nonnegative); and an entry whose breakdown is empty or all
zero — zero total due — never counts. -/
theorem C5_monthsWithDebt (entries : List MonthlyData)
    (paid : String → ℕ → Bool)
    (hnn : ∀ e ∈ entries, ∀ p ∈ e.breakdown, 0 ≤ p.2) :
    (dashboardMetrics entries paid).2
      = entries.countP (fun e => decide ((∃ p ∈ e.breakdown, p.2 ≠ 0) ∧
          ∃ p ∈ e.breakdown, p.2 ≠ 0 ∧ ¬paid p.1 e.month = true)) ∧
    ∀ e, (∀ p ∈ e.breakdown, p.2 = 0) → (dashboardMetrics [e] paid).2 = 0 := by
  constructor
  · rw [dashboardMetrics_char]
    show entries.countP _ = _
    refine List.countP_congr ?_
    intro e he
    rw [List.any_eq_true, decide_eq_true_eq]
    constructor
    · rintro ⟨p, hp, hpq⟩
      obtain ⟨hpos, hpf⟩ : 0 < p.2 ∧ paid p.1 e.month = false := by
        simpa using hpq
      have hunpaid : ¬paid p.1 e.month = true := by
        intro hcontra
        rw [hcontra] at hpf
        cases hpf
      exact ⟨⟨p, hp, ne_of_gt hpos⟩, ⟨p, hp, ne_of_gt hpos, hunpaid⟩⟩
    · rintro ⟨_, ⟨p, hp, hne, hunpaid⟩⟩
      have hpos : 0 < p.2 :=
        lt_of_le_of_ne (hnn e he p hp) (fun h => hne h.symm)
      have hpf : paid p.1 e.month = false := by
        cases hpb : paid p.1 e.month
        · rfl
        · exact absurd hpb hunpaid
      refine ⟨p, hp, ?_⟩
      simp [hpos, hpf]
  · intro e hz
    rw [dashboardMetrics_char]
    dsimp only
    rw [List.countP_cons, List.countP_nil, if_neg, Nat.zero_add]
    intro h
    obtain ⟨p, hp, hpq⟩ := List.any_eq_true.mp h
    obtain ⟨hpos, _⟩ : 0 < p.2 ∧ paid p.1 e.month = false := by simpa using hpq
    rw [hz p hp] at hpos
    exact lt_irrefl 0 hpos

/-- C5 witness at `sampleEntries` with only `(c1, 24288)` paid: month 24288
still has the unpaid `c2` amount and month 24289 is unpaid, so both count. -/
theorem C5_monthsWithDebt_witness :
    (∀ e ∈ sampleEntries, ∀ p ∈ e.breakdown, 0 ≤ p.2) ∧
    ((dashboardMetrics sampleEntries (fun c m => c == "c1" && m == 24288)).2
      = sampleEntries.countP (fun e => decide ((∃ p ∈ e.breakdown, p.2 ≠ 0) ∧
          ∃ p ∈ e.breakdown, p.2 ≠ 0 ∧
            ¬(fun c m => c == "c1" && m == 24288) p.1 e.month = true)) ∧
    ∀ e, (∀ p ∈ e.breakdown, p.2 = 0) →
      (dashboardMetrics [e] (fun c m => c == "c1" && m == 24288)).2 = 0) := by
  have hnn : ∀ e ∈ sampleEntries, ∀ p ∈ e.breakdown, 0 ≤ p.2 := by
    intro e he p hp
    fin_cases he <;> fin_cases hp <;> with_unfolding_all decide
  exact ⟨hnn, C5_monthsWithDebt sampleEntries _ hnn⟩

/-! ### C7 -/

/-- C7: with a (truthy) selection `id`, the filtered purchases are exactly
those whose `cardId` is `id` and the visible cards are exactly the cards with
that id — the single matching card when one exists; with no selection, the
filtered purchases are all purchases, the visible cards fall back to the full
card list when the projection is empty, and otherwise are exactly the cards
appearing with a nonzero amount in at least one projection entry (breakdown
amounts being nonnegative). -/
theorem C7_filter_views (cards : List Card) (ts : List Transaction)
    (sel : Option String) :
    (∀ id, sel = some id → id ≠ "" →
      filteredTransactions ts sel = ts.filter (fun t => t.cardId == id) ∧
      (∀ entries, visibleCards cards sel entries
          = cards.filter (fun c => c.id == id)) ∧
      (∀ entries c, cards.filter (fun c' => c'.id == id) = [c] →
        visibleCards cards sel entries = [c])) ∧
    (sel = none →
      filteredTransactions ts sel = ts ∧
      (∀ entries : List MonthlyData, entries = [] →
        visibleCards cards sel entries = cards) ∧
      (∀ entries : List MonthlyData, entries ≠ [] →
        (∀ e ∈ entries, ∀ p ∈ e.breakdown, 0 ≤ p.2) →
        ∀ c, (c ∈ visibleCards cards sel entries ↔
          c ∈ cards ∧ ∃ e ∈ entries, ∃ p ∈ e.breakdown,
            p.1 = c.id ∧ p.2 ≠ 0))) := by
  constructor
  · intro id hsel hid
    subst hsel
    have htr : isTruthy (some id) = true := by
      simp [isTruthy, hid]
    have hvis : ∀ entries, visibleCards cards (some id) entries
        = cards.filter (fun c => c.id == id) := by
      intro entries
      rw [visibleCards, if_pos htr]
      refine List.filter_congr ?_
      intro c _
      show (some c.id == some id) = (c.id == id)
      cases h : c.id == id
      · simp only [beq_eq_false_iff_ne] at h
        simp [h]
      · simp only [beq_iff_eq] at h
        simp [h]
    refine ⟨?_, hvis, ?_⟩
    · rw [filteredTransactions, if_pos htr]
      refine List.filter_congr ?_
      intro t _
      show (some t.cardId == some id) = (t.cardId == id)
      cases h : t.cardId == id
      · simp only [beq_eq_false_iff_ne] at h
        simp [h]
      · simp only [beq_iff_eq] at h
        simp [h]
    · intro entries c hc
      rw [hvis entries, hc]
  · intro hsel
    subst hsel
    have htr : isTruthy none = false := rfl
    refine ⟨?_, ?_, ?_⟩
    · rw [filteredTransactions, if_neg (by rw [htr]; exact Bool.false_ne_true)]
    · intro entries hent
      subst hent
      rw [visibleCards, if_neg (by rw [htr]; exact Bool.false_ne_true)]
      rfl
    · intro entries hne hnn c
      rw [visibleCards, if_neg (by rw [htr]; exact Bool.false_ne_true),
        if_neg (by simpa [List.isEmpty_iff] using hne)]
      rw [List.mem_filter]
      constructor
      · rintro ⟨hc, hact⟩
        obtain ⟨e, he, hany⟩ := List.any_eq_true.mp hact
        obtain ⟨p, hp, hpq⟩ := List.any_eq_true.mp hany
        obtain ⟨hid, hpos⟩ : p.1 = c.id ∧ 0 < p.2 := by simpa using hpq
        exact ⟨hc, e, he, p, hp, hid, ne_of_gt hpos⟩
      · rintro ⟨hc, e, he, p, hp, hid, hne2⟩
        refine ⟨hc, ?_⟩
        have hpos : 0 < p.2 :=
          lt_of_le_of_ne (hnn e he p hp) (fun h => hne2 h.symm)
        refine List.any_eq_true.mpr ⟨e, he, List.any_eq_true.mpr ⟨p, hp, ?_⟩⟩
        simp [hid, hpos]

/-- C7 witness with no selection: all purchases pass the filter, the empty
projection falls back to the full card list, and over `sampleEntries` a card
is visible exactly when it has a nonzero amount somewhere. -/
theorem C7_filter_views_witness :
    ((none : Option String) = none ∧ sampleEntries ≠ [] ∧
      (∀ e ∈ sampleEntries, ∀ p ∈ e.breakdown, 0 ≤ p.2)) ∧
    (filteredTransactions [sampleTV] none = [sampleTV] ∧
      visibleCards sampleCards none [] = sampleCards ∧
      ∀ c, (c ∈ visibleCards sampleCards none sampleEntries ↔
        c ∈ sampleCards ∧ ∃ e ∈ sampleEntries, ∃ p ∈ e.breakdown,
          p.1 = c.id ∧ p.2 ≠ 0)) := by
  have hne : sampleEntries ≠ [] := by simp [sampleEntries]
  have hnn : ∀ e ∈ sampleEntries, ∀ p ∈ e.breakdown, 0 ≤ p.2 := by
    intro e he p hp
    fin_cases he <;> fin_cases hp <;> with_unfolding_all decide
  have h := (C7_filter_views sampleCards [sampleTV] none).2 rfl
  exact ⟨⟨rfl, hne, hnn⟩, h.1, h.2.1 [] rfl, h.2.2 sampleEntries hne hnn⟩

/-! ### C8 -/

/-- C8, the code bug evaluated: the application generates card ids with
`crypto.randomUUID()` (hyphenated UUIDs) and composes ledger keys as
`cardId-YYYY-MM`, but `exportToExcel` decomposes keys with `key.split('-')`
taking the first three segments.  For the UUID card id below and month
`"2024-01"`, the exported row carries `CardID = "550e8400"` and
`Mês = "e29b-41d4"`, so re-importing does not reproduce the original
(card id, month, paid) triple. -/
theorem C8_export_key_bug :
    exportPaymentRow
        (mkInvoiceKey "550e8400-e29b-41d4-a716-446655440000" "2024-01") true
      = ("550e8400", "e29b-41d4", "SIM") ∧
    importPayment (exportPaymentRow
        (mkInvoiceKey "550e8400-e29b-41d4-a716-446655440000" "2024-01") true)
      ≠ ("550e8400-e29b-41d4-a716-446655440000", "2024-01", true) := by
  refine ⟨?_, ?_⟩ <;> with_unfolding_all decide

/-- For contrast: on a hyphen-free card id the export/import round trip is
exact, confirming that the key decomposition, not the sheet format, is what
breaks round-tripping. -/
theorem C8_roundtrip_hyphen_free :
    importPayment (exportPaymentRow (mkInvoiceKey "1712345678901" "2024-01") true)
      = ("1712345678901", "2024-01", true) := by
  with_unfolding_all decide

/-! ### C9 -/

/-- C9: when a purchase references a card id matching no existing card,
`getCardInfo` returns the placeholder card (unknown name, default color,
default due day) instead of failing. -/
theorem C9_placeholder_card (cards : List Card) (cardId : String)
    (h : ∀ c ∈ cards, c.id ≠ cardId) :
    getCardInfo cards cardId = placeholderCard := by
  rw [getCardInfo]
  have hf : cards.find? (fun c => c.id == cardId) = none := by
    rw [List.find?_eq_none]
    intro c hc
    simp [h c hc]
  rw [hf]

/-- C9 witness: looking up a deleted card id over `sampleCards`. -/
theorem C9_placeholder_card_witness :
    (∀ c ∈ sampleCards, c.id ≠ "deleted") ∧
    getCardInfo sampleCards "deleted" = placeholderCard := by
  refine ⟨?_, C9_placeholder_card sampleCards "deleted" ?_⟩ <;> decide

/-! ### C10 -/

/-- C10: toggling the payment status for `key` sets the in-memory ledger
entry for `key` to the negation of its previous value (an absent key reads as
`false`, unpaid, and becomes paid), leaves every other ledger key unchanged,
and does not modify the cards, purchases, or the selection. -/
theorem C10_toggle_frame (s : AppState) (key : String) :
    (toggleInvoiceStatus s key).invoiceStatus key = !(s.invoiceStatus key) ∧
    (∀ k, k ≠ key →
      (toggleInvoiceStatus s key).invoiceStatus k = s.invoiceStatus k) ∧
    (toggleInvoiceStatus s key).cards = s.cards ∧
    (toggleInvoiceStatus s key).transactions = s.transactions ∧
    (toggleInvoiceStatus s key).selectedCardId = s.selectedCardId := by
  refine ⟨?_, ?_, rfl, rfl, rfl⟩
  · show (if key = key then !(s.invoiceStatus key) else s.invoiceStatus key) = _
    rw [if_pos rfl]
  · intro k hk
    show (if k = key then !(s.invoiceStatus key) else s.invoiceStatus k) = _
    rw [if_neg hk]

/-- C10 witness: toggling `"c1-2024-02"` on `sampleState`. -/
theorem C10_toggle_frame_witness :
    ((toggleInvoiceStatus sampleState "c1-2024-02").invoiceStatus "c1-2024-02"
      = !(sampleState.invoiceStatus "c1-2024-02")) ∧
    (("c1-2024-01" : String) ≠ "c1-2024-02" ∧
      (toggleInvoiceStatus sampleState "c1-2024-02").invoiceStatus "c1-2024-01"
        = sampleState.invoiceStatus "c1-2024-01") ∧
    (toggleInvoiceStatus sampleState "c1-2024-02").cards = sampleState.cards ∧
    (toggleInvoiceStatus sampleState "c1-2024-02").transactions
      = sampleState.transactions ∧
    (toggleInvoiceStatus sampleState "c1-2024-02").selectedCardId
      = sampleState.selectedCardId := by
  obtain ⟨h1, h2, h3, h4, h5⟩ := C10_toggle_frame sampleState "c1-2024-02"
  exact ⟨h1, ⟨by decide, h2 "c1-2024-01" (by decide)⟩, h3, h4, h5⟩

end CreditFlow
